import Mathlib

/-!
# Verification of the DynEarthSol time-stepping and remeshing kernel

A shallow embedding of the 2D build (`THREED` undefined, so `NDIMS = 2`,
`NODES_PER_ELEM = 3`, `NSTR = 3`) of the solver's sources
(`dynearthsol.cxx`, `ic.cxx`, `input.cxx`, `remeshing.cxx`,
`constants.hpp`, `parameters.hpp`).  C++ `double` values are modelled as
exact rationals `ℚ`; arrays are modelled as total functions from indices,
with the active range (`nnode`, `nelem`, …) carried separately, matching
the flat-pointer style of the source.  Functions whose bodies live in
translation units outside the present sources (`ref_pressure`'s PREM
branch, `worst_elem_quality`) are supplied as oracle fields of the state.
-/

namespace DES

/-! ## Constants (`constants.hpp`, 2D build) -/

/-- Number of spatial dimensions (`NDIMS`); 2 because `THREED` is not defined. -/
def NDIMS : ℕ := 2

/-- Nodes per simplex element (`NODES_PER_ELEM = NDIMS + 1`). -/
def NODES_PER_ELEM : ℕ := 3

/-- Independent components of a symmetric tensor (`NSTR = NDIMS*(NDIMS+1)/2`). -/
def NSTR : ℕ := 3

/-- Nodes per facet (`NODES_PER_FACET = NDIMS`). -/
def NODES_PER_FACET : ℕ := 2

/-- Boundary flag bit for the western boundary (`BOUNDX0 = 1`). -/
def BOUNDX0 : ℕ := 1

/-- Boundary flag bit for the eastern boundary (`BOUNDX1 = 2`). -/
def BOUNDX1 : ℕ := 2

/-- Boundary flag bit for the southern boundary (`BOUNDY0 = 4`). -/
def BOUNDY0 : ℕ := 4

/-- Boundary flag bit for the northern boundary (`BOUNDY1 = 8`). -/
def BOUNDY1 : ℕ := 8

/-- Boundary flag bit for the bottom boundary (`BOUNDZ0 = 16`). -/
def BOUNDZ0 : ℕ := 16

/-- Boundary flag bit for the top boundary (`BOUNDZ1 = 32`). -/
def BOUNDZ1 : ℕ := 32

/-! ## Input parameters (`parameters.hpp`, the fields used by the claims) -/

/-- The slice of `struct Param` (with its `Sim`/`Mesh`/`Control`/`BC`/`IC`/`Mat`
sub-structures flattened) that the embedded functions read.  The field
`premPressure` is an oracle for the PREM branch of `ref_pressure`
(`ref_pressure_option = 1`), whose implementation is not among the present
sources. -/
structure Param where
  gravity : ℚ
  xlength : ℚ
  ylength : ℚ
  zlength : ℚ
  resolution : ℚ
  min_quality : ℚ
  smallest_size : ℚ
  restoring_bottom : Bool
  ref_pressure_option : ℤ
  surface_temperature : ℚ
  mantle_temperature : ℚ
  max_vbc_val : ℚ
  rho0_0 : ℚ
  is_plane_strain : Bool
  weakzone_plstrain : ℚ
  weakzone_xcenter : ℚ
  weakzone_zcenter : ℚ
  weakzone_xsemi_axis : ℚ
  weakzone_zsemi_axis : ℚ
  premPressure : ℚ → ℚ

/-! ## Model variables (`struct Variables`, the fields used by the claims) -/

/-- The slice of `struct Variables` read or written by the embedded functions.
Per-node and per-element arrays are total functions from the index; `vel` and
`force` are flattened row-major exactly as the source's
`double2d::data()` view (`vel (i*NDIMS + d)` is component `d` of node `i`).
`matRho e`, `matBulkm e`, `matCond e` stand for `var.mat->rho(e)`,
`var.mat->bulkm(e)`, `var.mat->k(e)` (the `MatProps` accessors live outside
the present sources and are scalar-in/scalar-out per the spec).
`worstElem`/`worstQuality` are the outputs of `worst_elem_quality`
(`geometry` unit, not among the present sources), taken as an oracle. -/
structure Variables where
  nnode : ℕ
  nelem : ℕ
  coord : ℕ → ℕ → ℚ
  connectivity : ℕ → ℕ → ℕ
  bcflag : ℕ → ℕ
  vel : ℕ → ℚ
  force : ℕ → ℚ
  volume : ℕ → ℚ
  mass : ℕ → ℚ
  tmass : ℕ → ℚ
  temperature : ℕ → ℚ
  shpdx : ℕ → ℕ → ℚ
  shpdz : ℕ → ℕ → ℚ
  dt : ℚ
  matRho : ℕ → ℚ
  matBulkm : ℕ → ℚ
  matCond : ℕ → ℚ
  worstElem : ℕ
  worstQuality : ℚ
  stress : ℕ → ℕ → ℚ
  strain : ℕ → ℕ → ℚ
  stressyy : ℕ → ℚ
  plstrain : ℕ → ℚ

/-! ## `update_velocity` (`dynearthsol.cxx:265`)

```cpp
const double* m = &(*var.volume)[0];
const double* f = var.force->data();
double* v = vel.data();
for (int i=0; i<var.nnode*NDIMS; ++i) {
    int n = i / NDIMS;
    v[i] += var.dt * f[i] / m[n];
}
```
Note that the pointer named `m` is bound to `var.volume`, the per-element
volume array, not to `var.mass`. -/

/-- Embedding of `update_velocity`: the returned function is the updated
flattened velocity array. -/
def update_velocity (var : Variables) : ℕ → ℚ := fun i =>
  if i < var.nnode * NDIMS then
    var.vel i + var.dt * var.force i / var.volume (i / NDIMS)
  else var.vel i

/-! ## `apply_vbcs` (`dynearthsol.cxx:95`) -/

/-- Embedding of `apply_vbcs` acting on the flattened velocity array.
For each node `i` below `nnode`: the x component is set to `∓max_vbc_val`
under `BOUNDX0`/`BOUNDX1`; the z component (`NDIMS-1 = 1`) is left alone
under `BOUNDZ0` (the assignment is commented out in the source) and zeroed
under `BOUNDZ1` otherwise.  The `BOUNDY0`/`BOUNDY1` block is compiled only
when `THREED` is defined, hence absent here. -/
def apply_vbcs (param : Param) (var : Variables) (vel : ℕ → ℚ) : ℕ → ℚ :=
  fun idx =>
    if idx < var.nnode * NDIMS then
      let i := idx / NDIMS
      let flag := var.bcflag i
      if idx % NDIMS = 0 then
        if flag &&& BOUNDX0 ≠ 0 then -param.max_vbc_val
        else if flag &&& BOUNDX1 ≠ 0 then param.max_vbc_val
        else vel idx
      else
        if flag &&& BOUNDZ0 ≠ 0 then vel idx
        else if flag &&& BOUNDZ1 ≠ 0 then 0
        else vel idx
    else vel idx

/-! ## `initial_stress_state` (`ic.cxx:155`)

The newer of the two variants in the sources (the spec's §9(a) directs to the
newer variant); it consults `ref_pressure` and optionally writes `stressyy`. -/

/-- Modelled from the spec: `ref_pressure` is implemented outside the present
sources (only its callers are here).  Per spec §4.6, the reference pressure at
depth `z` is `p(z) = ρ·g·|z|` for `ref_pressure_option = 0` (with ρ the
density `mat.rho0[0]` of the 0th material, per the option's description in
`input.cxx`), and PREM-based for option 1 (kept abstract via the
`premPressure` oracle). -/
def ref_pressure (param : Param) (z : ℚ) : ℚ :=
  if param.ref_pressure_option = 0 then
    param.rho0_0 * param.gravity * |z|
  else
    param.premPressure z

/-- The per-axis center-of-element accumulation loop shared by
`initial_stress_state` (z only) and `initial_weak_zone` (all axes):
`Σᵢ coord[conn[i]][d] / NODES_PER_ELEM`. -/
def centerOf (var : Variables) (e d : ℕ) : ℚ :=
  ((List.range NODES_PER_ELEM).foldl
    (fun a i => a + var.coord (var.connectivity e i) d) 0) / (NODES_PER_ELEM : ℚ)

/-- The bulk modulus used for element `e` inside the `initial_stress_state`
loop: `bulkm(0)` by default, re-read as `bulkm(e)` when
`ref_pressure_option ∈ {1, 2}`. -/
def ksOf (param : Param) (var : Variables) (e : ℕ) : ℚ :=
  if param.ref_pressure_option = 1 ∨ param.ref_pressure_option = 2 then
    var.matBulkm e
  else var.matBulkm 0

/-- Result record of `initial_stress_state`: the four reference parameters it
writes. -/
structure StressState where
  stress : ℕ → ℕ → ℚ
  strain : ℕ → ℕ → ℚ
  stressyy : ℕ → ℚ
  compensation_pressure : ℚ

/-- Embedding of `initial_stress_state` (`ic.cxx`).  With zero gravity it sets
`compensation_pressure = 0` and returns at once; otherwise for every element
it writes the first `NDIMS` Voigt components of stress and strain from the
reference pressure at the element's z center, writes `stressyy` under plane
strain, and finally sets `compensation_pressure = ref_pressure(-zlength)`. -/
def initial_stress_state (param : Param) (var : Variables) : StressState :=
  if param.gravity = 0 then
    { stress := var.stress, strain := var.strain, stressyy := var.stressyy
      compensation_pressure := 0 }
  else
    { stress := fun e i =>
        if e < var.nelem ∧ i < NDIMS then
          -(ref_pressure param (centerOf var e (NDIMS - 1)))
        else var.stress e i
      strain := fun e i =>
        if e < var.nelem ∧ i < NDIMS then
          -(ref_pressure param (centerOf var e (NDIMS - 1))) / ksOf param var e / (NDIMS : ℚ)
        else var.strain e i
      stressyy := fun e =>
        if e < var.nelem ∧ param.is_plane_strain then
          -(ref_pressure param (centerOf var e (NDIMS - 1)))
        else var.stressyy e
      compensation_pressure := ref_pressure param (-param.zlength) }

/-! ## `update_temperature` (`dynearthsol.cxx:153`) -/

/-- The element diffusion matrix entry
`D[i][j] = shpdx[e][i]*shpdx[e][j] + shpdz[e][i]*shpdz[e][j]`
(the 2D branch of the source's `if (NDIMS == 3)`). -/
def Dmat (var : Variables) (e i j : ℕ) : ℚ :=
  var.shpdx e i * var.shpdx e j + var.shpdz e i * var.shpdz e j

/-- The inner accumulation `diffusion = Σⱼ D[i][j] * temperature[conn[j]]`. -/
def diffusionOf (var : Variables) (e i : ℕ) : ℚ :=
  (List.range NODES_PER_ELEM).foldl
    (fun a j => a + Dmat var e i j * var.temperature (var.connectivity e j)) 0

/-- One scatter loop `for i: acc[f i] += g i` over the index list `l`,
starting from the accumulator `td`. -/
def scatter (f : ℕ → ℕ) (g : ℕ → ℚ) (l : List ℕ) (td : ℕ → ℚ) : ℕ → ℚ :=
  l.foldl (fun td' i => fun n => if n = f i then td' n + g i else td' n) td

/-- The scatter loops of `update_temperature` filling `tdot`: the accumulator
starts from the freshly zeroed vector (`tdot.assign(var.nnode, 0)`), and each
element `e` adds `diffusion * kv` (with `kv = k(e) * volume[e]`) into
`tdot[conn[i]]` for each of its local nodes `i`. -/
def tdotOf (var : Variables) : ℕ → ℚ :=
  (List.range var.nelem).foldl
    (fun td e =>
      scatter (var.connectivity e)
        (fun i => diffusionOf var e i * (var.matCond e * var.volume e))
        (List.range NODES_PER_ELEM) td)
    (fun _ => 0)

/-- Embedding of `update_temperature`: returns the updated nodal temperature
array together with the filled accumulator `tdot` (the caller passes
`var.tmp0` for it).  Nodes flagged `BOUNDZ1` are clamped to the surface
temperature; every other node advances by the explicit Euler step
`temperature[n] -= tdot[n] * dt / tmass[n]`. -/
def update_temperature (param : Param) (var : Variables) : (ℕ → ℚ) × (ℕ → ℚ) :=
  let tdot := tdotOf var
  (fun n =>
     if n < var.nnode then
       if var.bcflag n &&& BOUNDZ1 ≠ 0 then param.surface_temperature
       else var.temperature n - tdot n * var.dt / var.tmass n
     else var.temperature n,
   tdot)

/-! ## `initial_weak_zone`, option 2 (`ic.cxx:194`, `Ellipsoidal_zone` at `ic.cxx:69`) -/

/-- Membership test of `Ellipsoidal_zone::contains` with center `x0` and
squared semi-axes `sa2` (the constructor stores
`semi_axis2[i] = semi_axis[i] * semi_axis[i]`): strictly inside the ellipse. -/
def ellipsoidal_zone_contains (x0 sa2 x : ℚ × ℚ) : Prop :=
  (x.1 - x0.1) * (x.1 - x0.1) / sa2.1 + (x.2 - x0.2) * (x.2 - x0.2) / sa2.2 < 1

instance (x0 sa2 x : ℚ × ℚ) : Decidable (ellipsoidal_zone_contains x0 sa2 x) := by
  unfold ellipsoidal_zone_contains; infer_instance

/-- The weak-zone center for `weakzone_option = 2`:
`(xcenter*xlength, -zcenter*zlength)`. -/
def weakzone_center2 (param : Param) : ℚ × ℚ :=
  (param.weakzone_xcenter * param.xlength, -(param.weakzone_zcenter * param.zlength))

/-- The squared semi-axes stored by the `Ellipsoidal_zone` constructor for
`weakzone_option = 2`. -/
def weakzone_semi_axis2 (param : Param) : ℚ × ℚ :=
  (param.weakzone_xsemi_axis * param.weakzone_xsemi_axis,
   param.weakzone_zsemi_axis * param.weakzone_zsemi_axis)

/-- Embedding of the element loop of `initial_weak_zone` for
`weakzone_option = 2` (ellipsoidal zone, `Constant_value`, whose `contains`
returns `1.`): each element whose center is inside the zone gets
`plstrain[e] = weakzone_plstrain * 1`; all other entries are untouched. -/
def initial_weak_zone_opt2 (param : Param) (var : Variables) : ℕ → ℚ :=
  fun e =>
    if e < var.nelem ∧
        ellipsoidal_zone_contains (weakzone_center2 param) (weakzone_semi_axis2 param)
          (centerOf var e 0, centerOf var e 1) then
      param.weakzone_plstrain * 1
    else var.plstrain e

/-! ## `bad_mesh_quality` (`remeshing.cxx:384`)

```cpp
bool bad_mesh_quality(const Param &param, const Variables &var, int &index)
```
The function is declared to return `bool`, while its bodies execute
`return 2;`, `return 1;`, `return 0;`.  We embed the pair
(value of the executed return statement, index written), and separately the
value the caller observes after C++'s bool conversion. -/

/-- The bottom scan of `bad_mesh_quality`: the first node `i < nnode` flagged
`BOUNDZ0` whose z coordinate is farther than `0.25 * resolution` from
`-zlength`. -/
def firstFarBottomNode (param : Param) (var : Variables) : Option ℕ :=
  (List.range var.nnode).find? fun i =>
    decide (var.bcflag i &&& BOUNDZ0 ≠ 0 ∧
      1/4 * param.resolution < |var.coord i (NDIMS - 1) - (-param.zlength)|)

/-- Embedding of `bad_mesh_quality` at the level of its return statements:
the first component is the integer literal of the executed `return`, the
second the node or element index written into `index` (none when no branch
writes it).  The bottom check runs only under `restoring_bottom` and takes
precedence; otherwise the worst element quality (no cube root in 2D) is
compared against `min_quality`. -/
def bad_mesh_quality_stmt (param : Param) (var : Variables) : ℕ × Option ℕ :=
  match (if param.restoring_bottom then firstFarBottomNode param var else none) with
  | some i => (2, some i)
  | none =>
      if var.worstQuality < param.min_quality then (1, some var.worstElem)
      else (0, none)

/-- The value actually returned to the caller: the function's declared return
type is `bool`, so C++ converts the returned integer to `true`/`false`;
read back as an integer this is `1` or `0`. -/
def bad_mesh_quality (param : Param) (var : Variables) : ℕ :=
  if (bad_mesh_quality_stmt param var).1 ≠ 0 then 1 else 0

/-! ## Bottom restoration (`remeshing.cxx:44` and `remeshing.cxx:63`) -/

/-- Embedding of `is_bottom_corner` (2D branch): a node is a bottom corner
when its flag carries `BOUNDZ0` and additionally `BOUNDX0` or `BOUNDX1`. -/
def is_bottom_corner (flag : ℕ) : Bool :=
  if flag &&& BOUNDZ0 = 0 then false
  else if flag &&& BOUNDX0 ≠ 0 || flag &&& BOUNDX1 ≠ 0 then true
  else false

/-- The union of non-bottom boundary flags used by `new_bottom`
(`BOUNDX0 | BOUNDX1 | BOUNDY0 | BOUNDY1 | BOUNDZ1`). -/
def other_bdry : ℕ := BOUNDX0 ||| BOUNDX1 ||| BOUNDY0 ||| BOUNDY1 ||| BOUNDZ1

/-- The loop body of the `new_bottom` scan, acting on the pair
`(bottom_corners, points_to_delete)` for node `i` with flag `flag`. -/
def new_bottom_step (qz : ℕ → ℚ) (bottom_depth min_dist : ℚ) (flag : ℕ)
    (cd : List ℕ × List ℕ) (i : ℕ) : List ℕ × List ℕ :=
  if flag &&& BOUNDZ0 ≠ 0 then
    if is_bottom_corner flag then (cd.1 ++ [i], cd.2) else (cd.1, cd.2 ++ [i])
  else if flag &&& other_bdry = 0 ∧ |qz i - bottom_depth| < min_dist then
    (cd.1, cd.2 ++ [i])
  else cd

/-- The node scan of `new_bottom` over `old_bcflag`, producing
`(bottom_corners, points_to_delete)` in loop order.  `qz i` is the node's z
coordinate `qcoord[i*NDIMS + NDIMS-1]`.  Bottom nodes are split into corners
and deletions; non-bottom nodes away from every side boundary are marked for
deletion when within `min_dist` of `bottom_depth`. -/
def new_bottom_scan (bcflag : List ℕ) (qz : ℕ → ℚ)
    (bottom_depth min_dist : ℚ) : List ℕ × List ℕ :=
  (List.range bcflag.length).foldl
    (fun cd i => new_bottom_step qz bottom_depth min_dist (bcflag.getD i 0) cd i)
    ([], [])

/-- Embedding of `new_bottom` through its corner-count guard: after the scan,
a corner count different from `2 << (NDIMS-2) = 2` prints an error and calls
`std::exit(1)` (modelled as `Except.error 1`); otherwise the corners are
snapped to `bottom_depth` and processing continues with
`(corners, points_to_delete, snapped z-coordinates)`.  The subsequent facet
rewrite of the source acts only on the segment arrays and is not needed by
the claims about this function. -/
def new_bottom (bcflag : List ℕ) (qz : ℕ → ℚ) (bottom_depth min_dist : ℚ) :
    Except ℕ (List ℕ × List ℕ × (ℕ → ℚ)) :=
  let cd := new_bottom_scan bcflag qz bottom_depth min_dist
  if cd.1.length ≠ 2 then Except.error 1
  else Except.ok (cd.1, cd.2, fun i => if i ∈ cd.1 then bottom_depth else qz i)

/-! ## `delete_points` (`remeshing.cxx:220`)

Points are pairs of coordinates (`NDIMS = 2` doubles copied per deletion);
the segment array is a flat `int` buffer of `nseg * NODES_PER_FACET`
entries (it may contain `DELETED_FACET = -1`, hence `ℤ` values). -/

/-- The deletion loop of `delete_points`: the list argument is traversed in
order (the caller passes the reversed, hence descending, deletion list), `e`
is the running `end` index starting at `npoints - 1`.  Each step copies the
coordinates of point `e` into the deleted slot `i` and rewrites every
in-range segment entry equal to `e` into `i` (`std::replace`), then
decrements `end`. -/
def delete_points_loop (del : List ℕ) (e : ℕ) (nseg : ℕ)
    (pts : ℕ → ℚ × ℚ) (seg : ℕ → ℤ) : (ℕ → ℚ × ℚ) × (ℕ → ℤ) :=
  match del with
  | [] => (pts, seg)
  | i :: rest =>
      delete_points_loop rest (e - 1) nseg
        (fun p => if p = i then pts e else pts p)
        (fun k => if k < nseg * NODES_PER_FACET ∧ seg k = (e : ℤ) then (i : ℤ) else seg k)

/-- Embedding of `delete_points`: iterates the loop over the reversed deletion
list starting from `end = npoints - 1`, and finally decrements `npoints` by
the size of the deletion list. -/
def delete_points (del : List ℕ) (npoints nseg : ℕ)
    (pts : ℕ → ℚ × ℚ) (seg : ℕ → ℤ) : ℕ × (ℕ → ℚ × ℚ) × (ℕ → ℤ) :=
  let r := delete_points_loop del.reverse (npoints - 1) nseg pts seg
  (npoints - del.length, r.1, r.2)

/-! ## `validate_parameters`, stopping condition and output cadence
(`input.cxx:226`) -/

/-- The value of `std::numeric_limits<int>::max()`. -/
def intMax : ℤ := 2 ^ 31 - 1

/-- The value of `std::numeric_limits<double>::max()`,
`(2 - 2^-52) * 2^1023`, as an exact rational. -/
def dblMax : ℚ := (2 ^ 53 - 1) * 2 ^ 971

/-- The presence (`vm.count`) and parsed values of the four stopping and
output-cadence keys: `none` models an absent key. -/
structure SimIn where
  max_steps : Option ℤ
  max_time_in_yr : Option ℚ
  output_step_interval : Option ℤ
  output_time_interval_in_yr : Option ℚ

/-- Embedding of the stopping-condition and output-cadence phase of
`validate_parameters` (`input.cxx:226`-`248`): exit 1 when neither of
`sim.max_steps`/`sim.max_time_in_yr` is present, else fill the missing one
with its type's maximum; then the same for
`sim.output_step_interval`/`sim.output_time_interval_in_yr`.  On success the
four resulting field values are returned. -/
def validate_sim (s : SimIn) : Except ℕ (ℤ × ℚ × ℤ × ℚ) :=
  if s.max_steps = none ∧ s.max_time_in_yr = none then Except.error 1
  else if s.output_step_interval = none ∧ s.output_time_interval_in_yr = none then
    Except.error 1
  else
    Except.ok (s.max_steps.getD intMax, s.max_time_in_yr.getD dblMax,
               s.output_step_interval.getD intMax,
               s.output_time_interval_in_yr.getD dblMax)

/-! ## Generic accumulation lemmas -/

/-- A fold that only adds: peeling the initial value off. -/
lemma foldl_add_eq_sum (h : ℕ → ℚ) :
    ∀ (l : List ℕ) (a : ℚ), l.foldl (fun a' j => a' + h j) a = a + (l.map h).sum := by
  intro l
  induction l with
  | nil => simp
  | cons i t ih => intro a; simp [ih, add_assoc]

/-- Sum of a function mapped over `List.range` equals the `Finset.range` sum. -/
lemma list_range_map_sum (h : ℕ → ℚ) (k : ℕ) :
    ((List.range k).map h).sum = ∑ j ∈ Finset.range k, h j := by
  induction k with
  | zero => simp
  | succ m ih => simp [List.range_succ, Finset.sum_range_succ, ih]

/-- Pointwise value of a `scatter` loop: the old value plus the sum of the
contributions directed at this index. -/
lemma scatter_apply (f : ℕ → ℕ) (g : ℕ → ℚ) :
    ∀ (l : List ℕ) (td : ℕ → ℚ) (n : ℕ),
      scatter f g l td n = td n + (l.map (fun i => if f i = n then g i else 0)).sum := by
  intro l
  induction l with
  | nil => intro td n; simp [scatter]
  | cons i t ih =>
      intro td n
      simp only [scatter, List.foldl_cons, List.map_cons, List.sum_cons] at *
      rw [ih]
      by_cases h : f i = n
      · simp [h, add_assoc]
      · have h' : ¬n = f i := fun hn => h hn.symm
        simp [h, h']

/-- The element-center fold is the plain average of the three nodal
coordinates. -/
lemma centerOf_eq (var : Variables) (e d : ℕ) :
    centerOf var e d =
      (var.coord (var.connectivity e 0) d + var.coord (var.connectivity e 1) d +
       var.coord (var.connectivity e 2) d) / 3 := by
  simp [centerOf, NODES_PER_ELEM, List.range_succ]

/-- The `diffusion` fold is the corresponding finite sum. -/
lemma diffusionOf_eq (var : Variables) (e i : ℕ) :
    diffusionOf var e i =
      ∑ j ∈ Finset.range NODES_PER_ELEM,
        Dmat var e i j * var.temperature (var.connectivity e j) := by
  rw [diffusionOf, foldl_add_eq_sum, list_range_map_sum]
  simp

/-! ## Concrete states used by witnesses and counterexamples -/

/-- An all-zero parameter record. -/
def param0 : Param :=
  { gravity := 0, xlength := 0, ylength := 0, zlength := 0, resolution := 0
    min_quality := 0, smallest_size := 0, restoring_bottom := false
    ref_pressure_option := 0, surface_temperature := 0, mantle_temperature := 0
    max_vbc_val := 0, rho0_0 := 0, is_plane_strain := false
    weakzone_plstrain := 0, weakzone_xcenter := 0, weakzone_zcenter := 0
    weakzone_xsemi_axis := 0, weakzone_zsemi_axis := 0
    premPressure := fun _ => 0 }

/-- An all-zero state record. -/
def var0 : Variables :=
  { nnode := 0, nelem := 0, coord := fun _ _ => 0, connectivity := fun _ _ => 0
    bcflag := fun _ => 0, vel := fun _ => 0, force := fun _ => 0
    volume := fun _ => 0, mass := fun _ => 0, tmass := fun _ => 0
    temperature := fun _ => 0, shpdx := fun _ _ => 0, shpdz := fun _ _ => 0
    dt := 0, matRho := fun _ => 0, matBulkm := fun _ => 0, matCond := fun _ => 0
    worstElem := 0, worstQuality := 0, stress := fun _ _ => 0
    strain := fun _ _ => 0, stressyy := fun _ => 0, plstrain := fun _ => 0 }

/-! ## C10 — zero gravity leaves stress and strain untouched -/

/-- C10: if the gravity parameter is 0, `initial_stress_state` sets
`compensation_pressure` to 0 and returns immediately, leaving every entry of
the stress and strain arrays unchanged. -/
theorem initial_stress_state_zero_gravity (param : Param) (var : Variables)
    (h : param.gravity = 0) :
    (initial_stress_state param var).compensation_pressure = 0 ∧
    (initial_stress_state param var).stress = var.stress ∧
    (initial_stress_state param var).strain = var.strain := by
  simp [initial_stress_state, h]

theorem initial_stress_state_zero_gravity_witness :
    param0.gravity = 0 ∧
    ((initial_stress_state param0 var0).compensation_pressure = 0 ∧
     (initial_stress_state param0 var0).stress = var0.stress ∧
     (initial_stress_state param0 var0).strain = var0.strain) :=
  ⟨rfl, initial_stress_state_zero_gravity param0 var0 rfl⟩

/-! ## C1 — `update_velocity` divides by the element-volume array, not mass -/

/-- State exhibiting the C1 divergence: one node, one element, unit force and
time step, `volume[0] = 1` but lumped `mass[0] = 2`. -/
def varC1 : Variables :=
  { var0 with nnode := 1, nelem := 1, vel := fun _ => 0, force := fun _ => 1
              volume := fun _ => 1, mass := fun _ => 2, dt := 1 }

/-- C1 (code bug): on `varC1` the code yields
`vel[0][0] = 0 + dt*force/volume[0] = 1`, whereas the claimed update
`vel + dt*force/mass` gives `1/2`; the source binds the pointer named `m` to
`var.volume` instead of `var.mass`. -/
theorem update_velocity_uses_volume_not_mass :
    update_velocity varC1 0 = 1 ∧
    varC1.vel 0 + varC1.dt * varC1.force 0 / varC1.mass 0 = 1 / 2 ∧
    (1 : ℚ) ≠ 1 / 2 := by
  refine ⟨?_, ?_, by norm_num⟩
  · simp [update_velocity, varC1, var0, NDIMS]
  · norm_num [varC1, var0]

/-! ## C4 — `bad_mesh_quality` cannot return 2: its return type is `bool` -/

/-- Parameters for the C4 failing input: bottom restoring on, `zlength = 1`,
`resolution = 1`. -/
def paramC4 : Param :=
  { param0 with restoring_bottom := true, zlength := 1, resolution := 1 }

/-- State for the C4 failing input: a single `BOUNDZ0` node at
`z = -zlength - resolution/2 = -3/2`, half a resolution below the bottom. -/
def varC4 : Variables :=
  { var0 with nnode := 1, bcflag := fun _ => BOUNDZ0, coord := fun _ _ => -(3 / 2) }

/-- C4 (code bug): at the failing input the executed return statement is
`return 2` with the node index written, but the function's declared `bool`
return type converts the value, so the caller observes `1`, not `2`. -/
theorem bad_mesh_quality_bool_truncation :
    bad_mesh_quality_stmt paramC4 varC4 = (2, some 0) ∧
    bad_mesh_quality paramC4 varC4 = 1 ∧ (1 : ℕ) ≠ 2 := by
  have hp : varC4.bcflag 0 &&& BOUNDZ0 ≠ 0 ∧
      1 / 4 * paramC4.resolution < |varC4.coord 0 (NDIMS - 1) - (-paramC4.zlength)| := by
    refine ⟨by decide, ?_⟩
    have hv : varC4.coord 0 (NDIMS - 1) - (-paramC4.zlength) = -(1 / 2 : ℚ) := by
      show (-(3 / 2) : ℚ) - (-1) = -(1 / 2); norm_num
    rw [hv, abs_neg, abs_of_nonneg (by norm_num : (0 : ℚ) ≤ 1 / 2)]
    show (1 / 4 : ℚ) * 1 < 1 / 2
    norm_num
  have hfind : firstFarBottomNode paramC4 varC4 = some 0 := by
    rw [firstFarBottomNode]
    have h1 : varC4.nnode = 1 := rfl
    rw [h1, show List.range 1 = [0] from rfl]
    exact List.find?_cons_of_pos _ (decide_eq_true hp)
  have hrb : paramC4.restoring_bottom = true := rfl
  have hstmt : bad_mesh_quality_stmt paramC4 varC4 = (2, some 0) := by
    rw [bad_mesh_quality_stmt, hrb]
    simp [hfind]
  exact ⟨hstmt, by rw [bad_mesh_quality, hstmt]; norm_num, by norm_num⟩

/-! ## C8 — stopping-condition and output-cadence validation -/

/-- C8: the stopping/output phase of `validate_parameters` exits with status 1
exactly when neither key of the corresponding pair is present, and the
missing member of a partially given pair is set to its type's maximum
(`getD` keeps a present value and substitutes the maximum otherwise). -/
theorem validate_sim_spec (s : SimIn) :
    (validate_sim s = Except.error 1 ↔
      (s.max_steps = none ∧ s.max_time_in_yr = none) ∨
      (s.output_step_interval = none ∧ s.output_time_interval_in_yr = none)) ∧
    (∀ a b c d, validate_sim s = Except.ok (a, b, c, d) →
      a = s.max_steps.getD intMax ∧ b = s.max_time_in_yr.getD dblMax ∧
      c = s.output_step_interval.getD intMax ∧
      d = s.output_time_interval_in_yr.getD dblMax) := by
  unfold validate_sim
  split_ifs with h1 h2
  · refine ⟨by simp [h1], ?_⟩
    intro a b c d h; simp at h
  · refine ⟨by simp [h2.1, h2.2], ?_⟩
    intro a b c d h; simp at h
  · refine ⟨?_, ?_⟩
    · constructor
      · intro h; simp at h
      · rintro (⟨ha, hb⟩ | ⟨hc, hd⟩)
        · exact absurd ⟨ha, hb⟩ h1
        · exact absurd ⟨hc, hd⟩ h2
    · intro a b c d h
      injection h with h'
      simp only [Prod.mk.injEq] at h'
      obtain ⟨ha, hb, hc, hd⟩ := h'
      exact ⟨ha.symm, hb.symm, hc.symm, hd.symm⟩

/-- A configuration giving `sim.max_steps` and the output time interval only. -/
def simIn8 : SimIn :=
  { max_steps := some 5, max_time_in_yr := none
    output_step_interval := none, output_time_interval_in_yr := some 3 }

theorem validate_sim_spec_witness :
    (5 : ℤ) = simIn8.max_steps.getD intMax ∧ dblMax = simIn8.max_time_in_yr.getD dblMax ∧
    intMax = simIn8.output_step_interval.getD intMax ∧
    (3 : ℚ) = simIn8.output_time_interval_in_yr.getD dblMax :=
  (validate_sim_spec simIn8).2 5 dblMax intMax 3 rfl

/-! ## C2 — lithostatic initial stress state (option 0) -/

/-- Claim-side reference pressure at the element's z center, following the
spec's words: `p(z_c) = ρ·g·|z_c|` with `z_c` the plain average of the
element's nodal z coordinates. -/
def lithostatic_pressure (param : Param) (var : Variables) (e : ℕ) : ℚ :=
  param.rho0_0 * param.gravity *
    |(var.coord (var.connectivity e 0) 1 + var.coord (var.connectivity e 1) 1 +
      var.coord (var.connectivity e 2) 1) / 3|

/-- C2: with nonzero gravity and reference-pressure option 0, every element
gets its `NDIMS` diagonal Voigt stress components set to `-p(z_c)` and its
diagonal strain components to `-p(z_c)/(K·NDIMS)` with `K = bulkm(0)`, while
the off-diagonal (shear) component stays 0. -/
theorem initial_stress_state_lithostatic (param : Param) (var : Variables)
    (hg : param.gravity ≠ 0) (hopt : param.ref_pressure_option = 0)
    (e : ℕ) (he : e < var.nelem)
    (hs : var.stress e 2 = 0) (hn : var.strain e 2 = 0) :
    ((initial_stress_state param var).stress e 0 = -lithostatic_pressure param var e ∧
     (initial_stress_state param var).stress e 1 = -lithostatic_pressure param var e) ∧
    ((initial_stress_state param var).strain e 0 =
        -lithostatic_pressure param var e / (var.matBulkm 0 * (NDIMS : ℚ)) ∧
     (initial_stress_state param var).strain e 1 =
        -lithostatic_pressure param var e / (var.matBulkm 0 * (NDIMS : ℚ))) ∧
    ((initial_stress_state param var).stress e 2 = 0 ∧
     (initial_stress_state param var).strain e 2 = 0) := by
  have href : ref_pressure param (centerOf var e (NDIMS - 1)) =
      lithostatic_pressure param var e := by
    rw [ref_pressure, if_pos hopt, lithostatic_pressure, show NDIMS - 1 = 1 from rfl,
      centerOf_eq]
  have hks : ksOf param var e = var.matBulkm 0 := by
    rw [ksOf, if_neg]
    rw [hopt]
    norm_num
  have hstress : ∀ i, i < NDIMS →
      (initial_stress_state param var).stress e i = -lithostatic_pressure param var e := by
    intro i hi
    rw [initial_stress_state, if_neg hg]
    show (if e < var.nelem ∧ i < NDIMS then -ref_pressure param (centerOf var e (NDIMS - 1))
          else var.stress e i) = _
    rw [if_pos ⟨he, hi⟩, href]
  have hstrain : ∀ i, i < NDIMS →
      (initial_stress_state param var).strain e i =
        -lithostatic_pressure param var e / (var.matBulkm 0 * (NDIMS : ℚ)) := by
    intro i hi
    rw [initial_stress_state, if_neg hg]
    show (if e < var.nelem ∧ i < NDIMS then
            -ref_pressure param (centerOf var e (NDIMS - 1)) / ksOf param var e / (NDIMS : ℚ)
          else var.strain e i) = _
    rw [if_pos ⟨he, hi⟩, href, hks, div_div]
  refine ⟨⟨hstress 0 (by norm_num [NDIMS]), hstress 1 (by norm_num [NDIMS])⟩,
          ⟨hstrain 0 (by norm_num [NDIMS]), hstrain 1 (by norm_num [NDIMS])⟩, ?_, ?_⟩
  · rw [initial_stress_state, if_neg hg]
    show (if e < var.nelem ∧ 2 < NDIMS then -ref_pressure param (centerOf var e (NDIMS - 1))
          else var.stress e 2) = 0
    rw [if_neg (by rintro ⟨-, h⟩; norm_num [NDIMS] at h), hs]
  · rw [initial_stress_state, if_neg hg]
    show (if e < var.nelem ∧ 2 < NDIMS then
            -ref_pressure param (centerOf var e (NDIMS - 1)) / ksOf param var e / (NDIMS : ℚ)
          else var.strain e 2) = 0
    rw [if_neg (by rintro ⟨-, h⟩; norm_num [NDIMS] at h), hn]

/-- Parameters for the C2/C7 witnesses. -/
def paramC2 : Param :=
  { param0 with gravity := 1, rho0_0 := 1, xlength := 1, zlength := 1
                weakzone_plstrain := 5, weakzone_xsemi_axis := 1
                weakzone_zsemi_axis := 1 }

/-- State for the C2 witness: one element on nodes `0,1,2`, all at `z = -3`,
unit bulk modulus. -/
def varC2 : Variables :=
  { var0 with nelem := 1, connectivity := fun _ i => i
              coord := fun _ d => if d = 1 then -3 else 0
              matBulkm := fun _ => 1 }

theorem initial_stress_state_lithostatic_witness :
    ((initial_stress_state paramC2 varC2).stress 0 0 = -lithostatic_pressure paramC2 varC2 0 ∧
     (initial_stress_state paramC2 varC2).stress 0 1 = -lithostatic_pressure paramC2 varC2 0) ∧
    ((initial_stress_state paramC2 varC2).strain 0 0 =
        -lithostatic_pressure paramC2 varC2 0 / (varC2.matBulkm 0 * (NDIMS : ℚ)) ∧
     (initial_stress_state paramC2 varC2).strain 0 1 =
        -lithostatic_pressure paramC2 varC2 0 / (varC2.matBulkm 0 * (NDIMS : ℚ))) ∧
    ((initial_stress_state paramC2 varC2).stress 0 2 = 0 ∧
     (initial_stress_state paramC2 varC2).strain 0 2 = 0) :=
  initial_stress_state_lithostatic paramC2 varC2 (by norm_num [paramC2, param0])
    rfl 0 (by norm_num [varC2, var0]) rfl rfl

/-! ## C7 — ellipsoidal weak zone (option 2) -/

/-- Claim-side membership of the element centroid in the configured
ellipse, following the spec's words: centroid = average of the nodal
coordinates, and `Σ_d (c_d - x0_d)² / a_d² < 1` with
`x0 = (xcenter·xlength, -zcenter·zlength)` and the raw semi-axes `a_d`. -/
def centroid_in_ellipse (param : Param) (var : Variables) (e : ℕ) : Prop :=
  ((var.coord (var.connectivity e 0) 0 + var.coord (var.connectivity e 1) 0 +
    var.coord (var.connectivity e 2) 0) / 3 -
      param.weakzone_xcenter * param.xlength) ^ 2 / param.weakzone_xsemi_axis ^ 2 +
  ((var.coord (var.connectivity e 0) 1 + var.coord (var.connectivity e 1) 1 +
    var.coord (var.connectivity e 2) 1) / 3 -
      -(param.weakzone_zcenter * param.zlength)) ^ 2 / param.weakzone_zsemi_axis ^ 2 < 1

/-- C7: with an initially zero plastic-strain field, after the option-2 weak
zone every element whose centroid lies strictly inside the ellipsoid has
`plstrain = weakzone_plstrain`, and every other element keeps `plstrain = 0`. -/
theorem initial_weak_zone_opt2_spec (param : Param) (var : Variables)
    (h0 : ∀ e, e < var.nelem → var.plstrain e = 0) (e : ℕ) (he : e < var.nelem) :
    (centroid_in_ellipse param var e →
      initial_weak_zone_opt2 param var e = param.weakzone_plstrain) ∧
    (¬centroid_in_ellipse param var e →
      initial_weak_zone_opt2 param var e = 0) := by
  have hiff : ellipsoidal_zone_contains (weakzone_center2 param)
      (weakzone_semi_axis2 param) (centerOf var e 0, centerOf var e 1) ↔
      centroid_in_ellipse param var e := by
    unfold ellipsoidal_zone_contains centroid_in_ellipse weakzone_center2 weakzone_semi_axis2
    rw [centerOf_eq, centerOf_eq]
    constructor <;> intro h <;>
      [(refine lt_of_le_of_lt (le_of_eq ?_) h; ring);
       (refine lt_of_le_of_lt (le_of_eq ?_) h; ring)]
  constructor
  · intro hc
    rw [initial_weak_zone_opt2, if_pos ⟨he, hiff.mpr hc⟩, mul_one]
  · intro hc
    rw [initial_weak_zone_opt2, if_neg (by rintro ⟨-, h⟩; exact hc (hiff.mp h)),
      h0 e he]

/-- State for the C7 witness: one element whose centroid is the origin, which
lies inside the unit-semiaxis ellipse centered at the origin. -/
def varC7 : Variables :=
  { var0 with nelem := 1, connectivity := fun _ i => i }

theorem initial_weak_zone_opt2_spec_witness :
    initial_weak_zone_opt2 paramC2 varC7 0 = paramC2.weakzone_plstrain :=
  (initial_weak_zone_opt2_spec paramC2 varC7 (fun _ _ => rfl) 0
      (by norm_num [varC7, var0])).1
    (by norm_num [centroid_in_ellipse, varC7, var0, paramC2, param0])

/-! ## C9 — `apply_vbcs` write set and idempotence -/

/-- C9: `apply_vbcs` is idempotent; the x velocity of a node with neither
`BOUNDX0` nor `BOUNDX1` is untouched; the vertical velocity is untouched
whenever the node carries `BOUNDZ0` (never constrained at the bottom) or
lacks `BOUNDZ1`; and entries beyond the active range are untouched. -/
theorem apply_vbcs_spec (param : Param) (var : Variables) (vel : ℕ → ℚ) :
    apply_vbcs param var (apply_vbcs param var vel) = apply_vbcs param var vel ∧
    (∀ i, i < var.nnode → var.bcflag i &&& BOUNDX0 = 0 → var.bcflag i &&& BOUNDX1 = 0 →
      apply_vbcs param var vel (i * NDIMS) = vel (i * NDIMS)) ∧
    (∀ i, i < var.nnode →
      (var.bcflag i &&& BOUNDZ0 ≠ 0 ∨ var.bcflag i &&& BOUNDZ1 = 0) →
      apply_vbcs param var vel (i * NDIMS + 1) = vel (i * NDIMS + 1)) ∧
    (∀ idx, var.nnode * NDIMS ≤ idx → apply_vbcs param var vel idx = vel idx) := by
  refine ⟨?_, ?_, ?_, ?_⟩
  · funext idx
    simp only [apply_vbcs]
    split_ifs <;> rfl
  · intro i hi hx0 hx1
    have hlt : i * NDIMS < var.nnode * NDIMS := by
      simp only [NDIMS]; omega
    have hdiv : i * NDIMS / NDIMS = i := by
      simp only [NDIMS]; omega
    have hmod : i * NDIMS % NDIMS = 0 := by
      simp only [NDIMS]; omega
    simp only [apply_vbcs]
    rw [if_pos hlt, if_pos hmod, hdiv, if_neg (by simp [hx0]), if_neg (by simp [hx1])]
  · intro i hi hz
    have hlt : i * NDIMS + 1 < var.nnode * NDIMS := by
      simp only [NDIMS]; omega
    have hdiv : (i * NDIMS + 1) / NDIMS = i := by
      simp only [NDIMS]; omega
    have hmod : (i * NDIMS + 1) % NDIMS = 1 := by
      simp only [NDIMS]; omega
    simp only [apply_vbcs]
    rw [if_pos hlt, if_neg (by rw [hmod]; norm_num), hdiv]
    rcases hz with hz0 | hz1
    · rw [if_pos hz0]
    · by_cases hz0 : var.bcflag i &&& BOUNDZ0 ≠ 0
      · rw [if_pos hz0]
      · rw [if_neg hz0, if_neg (by simp [hz1])]
  · intro idx hidx
    simp only [apply_vbcs]
    rw [if_neg (by omega)]

/-- A state for the C9 witness: two nodes, the first flagged
`BOUNDZ0 ||| BOUNDZ1`, the second interior. -/
def varC9 : Variables :=
  { var0 with nnode := 2, bcflag := fun i => if i = 0 then BOUNDZ0 ||| BOUNDZ1 else 0 }

theorem apply_vbcs_spec_witness :
    apply_vbcs param0 varC9 (apply_vbcs param0 varC9 (fun _ => 7)) =
      apply_vbcs param0 varC9 (fun _ => 7) ∧
    apply_vbcs param0 varC9 (fun _ => 7) (1 * NDIMS) = (fun _ => (7 : ℚ)) (1 * NDIMS) ∧
    apply_vbcs param0 varC9 (fun _ => 7) (0 * NDIMS + 1) = (fun _ => (7 : ℚ)) (0 * NDIMS + 1) ∧
    apply_vbcs param0 varC9 (fun _ => 7) 4 = (fun _ => (7 : ℚ)) 4 := by
  obtain ⟨h1, h2, h3, h4⟩ := apply_vbcs_spec param0 varC9 (fun _ => 7)
  exact ⟨h1, h2 1 (by norm_num [varC9, var0]) (by decide) (by decide),
         h3 0 (by norm_num [varC9, var0]) (Or.inl (by decide)),
         h4 4 (by norm_num [varC9, var0, NDIMS])⟩

/-! ## C5 — bottom-corner collection and the fatal corner-count guard -/

/-- The first component of the `new_bottom` scan over any index list,
relative to any accumulator: the collected corners are exactly the indices
passing `is_bottom_corner`, in order. -/
lemma new_bottom_scan_fst_aux (flags : ℕ → ℕ) (qz : ℕ → ℚ) (bd md : ℚ) :
    ∀ (l : List ℕ) (acc : List ℕ × List ℕ),
      (l.foldl (fun cd i => new_bottom_step qz bd md (flags i) cd i) acc).1
      = acc.1 ++ l.filter (fun i => is_bottom_corner (flags i)) := by
  intro l
  induction l with
  | nil => simp
  | cons i t ih =>
      intro acc
      rw [List.foldl_cons, List.filter_cons]
      by_cases hz : flags i &&& BOUNDZ0 ≠ 0
      · by_cases hc : is_bottom_corner (flags i)
        · have hstep : new_bottom_step qz bd md (flags i) acc i = (acc.1 ++ [i], acc.2) := by
            rw [new_bottom_step, if_pos hz, if_pos hc]
          rw [hstep, ih]
          simp [hc]
        · have hstep : new_bottom_step qz bd md (flags i) acc i = (acc.1, acc.2 ++ [i]) := by
            rw [new_bottom_step, if_pos hz, if_neg hc]
          rw [hstep, ih]
          simp [hc]
      · have hz0 : flags i &&& BOUNDZ0 = 0 := not_ne_iff.mp hz
        have hcf : is_bottom_corner (flags i) = false := by
          rw [is_bottom_corner, if_pos hz0]
        by_cases hcl : flags i &&& other_bdry = 0 ∧ |qz i - bd| < md
        · have hstep : new_bottom_step qz bd md (flags i) acc i = (acc.1, acc.2 ++ [i]) := by
            rw [new_bottom_step, if_neg hz, if_pos hcl]
          rw [hstep, ih]
          simp [hcf]
        · have hstep : new_bottom_step qz bd md (flags i) acc i = acc := by
            rw [new_bottom_step, if_neg hz, if_neg hcl]
          rw [hstep, ih]
          simp [hcf]

/-- The corner list collected by `new_bottom_scan`. -/
lemma new_bottom_scan_fst (bcflag : List ℕ) (qz : ℕ → ℚ) (bd md : ℚ) :
    (new_bottom_scan bcflag qz bd md).1 =
      (List.range bcflag.length).filter
        (fun i => is_bottom_corner (bcflag.getD i 0)) := by
  rw [new_bottom_scan]
  simpa using new_bottom_scan_fst_aux (fun i => bcflag.getD i 0) qz bd md
    (List.range bcflag.length) ([], [])

/-- C5: `new_bottom` collects exactly the bottom-corner nodes (flag carrying
`BOUNDZ0` and a side flag), and exits fatally with status 1 precisely when
their number differs from `2^(NDIMS-1)`; on a wrong count no result state is
produced, so the remeshing pipeline cannot proceed. -/
theorem new_bottom_corner_guard (bcflag : List ℕ) (qz : ℕ → ℚ) (bd md : ℚ) :
    (new_bottom bcflag qz bd md = Except.error 1 ↔
      ((List.range bcflag.length).filter
        (fun i => is_bottom_corner (bcflag.getD i 0))).length ≠ 2 ^ (NDIMS - 1)) ∧
    (∀ r, new_bottom bcflag qz bd md = Except.ok r →
      r.1 = (List.range bcflag.length).filter
        (fun i => is_bottom_corner (bcflag.getD i 0))) := by
  have h2 : (2 : ℕ) ^ (NDIMS - 1) = 2 := by norm_num [NDIMS]
  constructor
  · rw [new_bottom, h2]
    by_cases h : (new_bottom_scan bcflag qz bd md).1.length ≠ 2
    · rw [if_pos h, ← new_bottom_scan_fst bcflag qz bd md]
      simp [h]
    · rw [if_neg h, ← new_bottom_scan_fst bcflag qz bd md]
      simp [h]
  · intro r hr
    rw [new_bottom] at hr
    split_ifs at hr with h
    injection hr with hr'
    rw [← hr', ← new_bottom_scan_fst bcflag qz bd md]

/-- Boundary flags with exactly one bottom corner (node 0: bottom and west,
node 1: plain bottom), so the guard must fire. -/
def bcflagC5 : List ℕ := [BOUNDZ0 ||| BOUNDX0, BOUNDZ0]

theorem new_bottom_corner_guard_witness :
    new_bottom bcflagC5 (fun _ => 0) 0 0 = Except.error 1 :=
  (new_bottom_corner_guard bcflagC5 (fun _ => 0) 0 0).1.mpr (by decide)

/-! ## C3 — `update_temperature` against the assembled diffusion sum -/

/-- Claim-side nodal accumulator: node `n` receives, from every element and
every local node `i` with `conn[e][i] = n`, the contribution
`κ·V·(D·T)_i` with `D_ij = Σ_d (∂N_i/∂x_d)(∂N_j/∂x_d)`. -/
def tdotSpec (var : Variables) (n : ℕ) : ℚ :=
  ∑ e ∈ Finset.range var.nelem, ∑ i ∈ Finset.range NODES_PER_ELEM,
    if var.connectivity e i = n then
      (var.matCond e * var.volume e) *
        ∑ j ∈ Finset.range NODES_PER_ELEM,
          Dmat var e i j * var.temperature (var.connectivity e j)
    else 0

/-- `scatter` over an index range, with the contribution sum in `Finset`
form. -/
lemma scatter_apply_range (f : ℕ → ℕ) (g : ℕ → ℚ) (k : ℕ) (td : ℕ → ℚ) (n : ℕ) :
    scatter f g (List.range k) td n =
      td n + ∑ i ∈ Finset.range k, if f i = n then g i else 0 := by
  rw [scatter_apply, list_range_map_sum]

/-- The element loop of `update_temperature`, peeled one element at a time. -/
lemma tdot_fold_aux (var : Variables) (n : ℕ) :
    ∀ (m : ℕ) (td : ℕ → ℚ),
      ((List.range m).foldl
        (fun td' e =>
          scatter (var.connectivity e)
            (fun i => diffusionOf var e i * (var.matCond e * var.volume e))
            (List.range NODES_PER_ELEM) td') td) n
      = td n + ∑ e ∈ Finset.range m, ∑ i ∈ Finset.range NODES_PER_ELEM,
          (if var.connectivity e i = n then
            diffusionOf var e i * (var.matCond e * var.volume e) else 0) := by
  intro m
  induction m with
  | zero => simp
  | succ p ih =>
      intro td
      rw [List.range_succ, List.foldl_append, List.foldl_cons, List.foldl_nil,
        scatter_apply_range, ih td, Finset.sum_range_succ]
      ring

/-- The imperative accumulator equals the claim-side double sum. -/
lemma tdotOf_eq_spec (var : Variables) (n : ℕ) : tdotOf var n = tdotSpec var n := by
  rw [tdotOf, tdot_fold_aux var n var.nelem (fun _ => 0), tdotSpec, zero_add]
  refine Finset.sum_congr rfl fun e _ => Finset.sum_congr rfl fun i _ => ?_
  split_ifs with h
  · rw [diffusionOf_eq, mul_comm]
  · rfl

/-- C3: after `update_temperature`, a node flagged `BOUNDZ1` holds exactly the
surface temperature, every other node holds `T_n - Δt·tdot_n/tmass_n`, and
the output accumulator equals the freshly assembled diffusion sum at every
index. -/
theorem update_temperature_spec (param : Param) (var : Variables) (n : ℕ)
    (hn : n < var.nnode) :
    (var.bcflag n &&& BOUNDZ1 ≠ 0 →
      (update_temperature param var).1 n = param.surface_temperature) ∧
    (var.bcflag n &&& BOUNDZ1 = 0 →
      (update_temperature param var).1 n =
        var.temperature n - var.dt * tdotSpec var n / var.tmass n) ∧
    ∀ m, (update_temperature param var).2 m = tdotSpec var m := by
  refine ⟨?_, ?_, ?_⟩
  · intro hb
    show (if n < var.nnode then
            if var.bcflag n &&& BOUNDZ1 ≠ 0 then param.surface_temperature
            else var.temperature n - tdotOf var n * var.dt / var.tmass n
          else var.temperature n) = _
    rw [if_pos hn, if_pos hb]
  · intro hb
    show (if n < var.nnode then
            if var.bcflag n &&& BOUNDZ1 ≠ 0 then param.surface_temperature
            else var.temperature n - tdotOf var n * var.dt / var.tmass n
          else var.temperature n) = _
    rw [if_pos hn, if_neg (by simp [hb]), tdotOf_eq_spec]
    ring
  · intro m
    show tdotOf var m = tdotSpec var m
    exact tdotOf_eq_spec var m

/-- Parameters for the C3 witness. -/
def paramC3 : Param := { param0 with surface_temperature := 9 }

/-- State for the C3 witness: one element on nodes `0,1,2`, node 0 on the top
boundary, unit conductivity/volume/thermal mass, `Δt = 2`. -/
def varC3 : Variables :=
  { var0 with nnode := 3, nelem := 1, connectivity := fun _ i => i
              bcflag := fun n => if n = 0 then BOUNDZ1 else 0
              temperature := fun n => (n : ℚ)
              shpdx := fun _ _ => 1, shpdz := fun _ _ => 0
              matCond := fun _ => 1, volume := fun _ => 1
              tmass := fun _ => 1, dt := 2 }

theorem update_temperature_spec_witness :
    (update_temperature paramC3 varC3).1 0 = paramC3.surface_temperature ∧
    (update_temperature paramC3 varC3).1 1 =
      varC3.temperature 1 - varC3.dt * tdotSpec varC3 1 / varC3.tmass 1 :=
  ⟨(update_temperature_spec paramC3 varC3 0 (by norm_num [varC3, var0])).1 (by decide),
   (update_temperature_spec paramC3 varC3 1 (by norm_num [varC3, var0])).2.1 (by decide)⟩

/-! ## C6 — `delete_points` preserves surviving points through swaps -/

/-- Survivor tracking through the deletion loop: for a descending deletion
list fitting under `e` and a surviving index `v ≤ e`, some final slot `w`
within the shrunk range holds `v`'s coordinates, and every in-range segment
entry that referenced `v` ends up referencing `w`. -/
lemma delete_points_loop_track (nseg : ℕ) (del : List ℕ) :
    ∀ (e : ℕ) (pts : ℕ → ℚ × ℚ) (seg : ℕ → ℤ) (v : ℕ),
      del.Pairwise (· > ·) → (∀ i ∈ del, i ≤ e) → v ≤ e → v ∉ del →
      ∃ w, w ≤ e - del.length ∧
        (delete_points_loop del e nseg pts seg).1 w = pts v ∧
        ∀ k, k < nseg * NODES_PER_FACET → seg k = (v : ℤ) →
          (delete_points_loop del e nseg pts seg).2 k = (w : ℤ) := by
  induction del with
  | nil =>
      intro e pts seg v _ _ hv _
      exact ⟨v, by simpa using hv, rfl, fun k _ hk => hk⟩
  | cons i rest ih =>
      intro e pts seg v hpw hall hv hnot
      have hpw1 : ∀ j ∈ rest, i > j := (List.pairwise_cons.mp hpw).1
      have hpwr : rest.Pairwise (· > ·) := (List.pairwise_cons.mp hpw).2
      have hie : i ≤ e := hall i (List.mem_cons_self i rest)
      have hvi : v ≠ i := fun h => hnot (h ▸ List.mem_cons_self i rest)
      have hall' : ∀ j ∈ rest, j ≤ e - 1 := fun j hj => by
        have := hpw1 j hj; omega
      have hred : delete_points_loop (i :: rest) e nseg pts seg =
          delete_points_loop rest (e - 1) nseg
            (fun p => if p = i then pts e else pts p)
            (fun k => if k < nseg * NODES_PER_FACET ∧ seg k = (e : ℤ) then (i : ℤ)
                      else seg k) := rfl
      by_cases hve : v = e
      · -- the survivor sits exactly at the slot being vacated: it moves to `i`
        have hine : i ≠ e := fun h => hvi (hve.trans h.symm)
        obtain ⟨w, hw1, hw2, hw3⟩ := ih (e - 1)
          (fun p => if p = i then pts e else pts p)
          (fun k => if k < nseg * NODES_PER_FACET ∧ seg k = (e : ℤ) then (i : ℤ)
                    else seg k) i
          hpwr hall' (by omega)
          (fun h => absurd (hpw1 i h) (lt_irrefl i))
        refine ⟨w, by simp only [List.length_cons]; omega, ?_, ?_⟩
        · rw [hred, hw2, if_pos rfl, hve]
        · intro k hk hs
          rw [hred]
          apply hw3 k hk
          rw [if_pos ⟨hk, by rw [hs, hve]⟩]
      · -- the survivor stays in place for this step
        obtain ⟨w, hw1, hw2, hw3⟩ := ih (e - 1)
          (fun p => if p = i then pts e else pts p)
          (fun k => if k < nseg * NODES_PER_FACET ∧ seg k = (e : ℤ) then (i : ℤ)
                    else seg k) v
          hpwr hall' (by omega) (fun h => hnot (List.mem_cons_of_mem _ h))
        refine ⟨w, by simp only [List.length_cons]; omega, ?_, ?_⟩
        · rw [hred, hw2, if_neg hvi]
        · intro k hk hs
          rw [hred]
          apply hw3 k hk
          have hne : ¬(k < nseg * NODES_PER_FACET ∧ seg k = (e : ℤ)) := by
            rintro ⟨-, h⟩
            apply hve
            have hcast : (v : ℤ) = (e : ℤ) := by rw [← hs, h]
            exact_mod_cast hcast
          rw [if_neg hne, hs]

/-- C6: for a strictly ascending deletion list of valid indices,
`delete_points` ends with `npoints` decreased by the list length, and every
segment entry that referenced a surviving point still references the same
geometric point (its coordinates now live at the referenced slot, inside the
shrunk range). -/
theorem delete_points_spec (del : List ℕ) (npoints nseg : ℕ)
    (pts : ℕ → ℚ × ℚ) (seg : ℕ → ℤ)
    (hsorted : del.Sorted (· < ·)) (hmem : ∀ i ∈ del, i < npoints) :
    (delete_points del npoints nseg pts seg).1 = npoints - del.length ∧
    ∀ v, v < npoints → v ∉ del →
      ∃ w, w < npoints - del.length ∧
        (delete_points del npoints nseg pts seg).2.1 w = pts v ∧
        ∀ k, k < nseg * NODES_PER_FACET → seg k = (v : ℤ) →
          (delete_points del npoints nseg pts seg).2.2 k = (w : ℤ) := by
  constructor
  · rfl
  · intro v hv hvnot
    have hrev : del.reverse.Pairwise (· > ·) := by
      rw [List.pairwise_reverse]; exact hsorted
    have hall : ∀ i ∈ del.reverse, i ≤ npoints - 1 := fun i hi => by
      have := hmem i (List.mem_reverse.mp hi); omega
    obtain ⟨w, hw1, hw2, hw3⟩ := delete_points_loop_track nseg del.reverse
      (npoints - 1) pts seg v hrev hall (by omega)
      (fun h => hvnot (List.mem_reverse.mp h))
    have hnodup : del.Nodup := hsorted.imp ne_of_lt
    have hlen : del.length < npoints := by
      have hsub : del.toFinset ⊆ (Finset.range npoints).erase v := by
        intro x hx
        rw [List.mem_toFinset] at hx
        exact Finset.mem_erase.mpr
          ⟨fun hxv => hvnot (hxv ▸ hx), Finset.mem_range.mpr (hmem x hx)⟩
      have hcard := Finset.card_le_card hsub
      rw [List.toFinset_card_of_nodup hnodup,
        Finset.card_erase_of_mem (Finset.mem_range.mpr hv), Finset.card_range] at hcard
      omega
    have hwl : w < npoints - del.length := by
      rw [List.length_reverse] at hw1; omega
    exact ⟨w, hwl, hw2, hw3⟩

/-- Points for the C6 witness: point `p` has coordinates `(p, 0)`. -/
def ptsC6 : ℕ → ℚ × ℚ := fun p => ((p : ℚ), 0)

/-- One segment `(2, 0)` referencing the last point of three. -/
def segC6 : ℕ → ℤ := fun k => if k = 0 then 2 else 0

theorem delete_points_spec_witness :
    (delete_points [1] 3 1 ptsC6 segC6).1 = 2 ∧
    ∃ w, w < 2 ∧ (delete_points [1] 3 1 ptsC6 segC6).2.1 w = ptsC6 2 ∧
      ∀ k, k < 1 * NODES_PER_FACET → segC6 k = (2 : ℤ) →
        (delete_points [1] 3 1 ptsC6 segC6).2.2 k = (w : ℤ) := by
  obtain ⟨h1, h2⟩ := delete_points_spec [1] 3 1 ptsC6 segC6
    (List.sorted_singleton 1) (by simp)
  exact ⟨h1, h2 2 (by norm_num) (by simp)⟩

end DES
